import Mathlib

/-!
Verification development for the `FromQueryResult` derive of
`sea-orm-macros/src/derives/from_query_result.rs`.

The derive macro emits, per target structure, two extraction routines:

* `from_query_result_nullable(row, pre)` — for each field, a *check*
  (`TryFromQueryResultCheck`) binds a local holding either the value or a
  pending error, returning early only on a `TryGetError::DbErr`; then an
  *assignment* phase (`TryFromQueryResultAssignment`) builds the structure,
  applying `?` to every non-skip binding;
* `from_query_result(row, pre)` — calls the nullable routine and converts
  any leftover error into a `DbErr` via the `From` conversion.

Since the generated code is straight-line per field, we embed its runtime
semantics directly: a schema value (`Schema`) stands for the field list the
macro iterated over, and the two routines become recursive functions over it.
-/

/-- A cell as seen through the row collaborator: a decoded value, a
NULL/absent cell, or a decoding failure. -/
inductive Cell where
  | value (v : String)
  | null
  | decodeError (msg : String)
deriving DecidableEq, Repr

/-- A row is a total column-name-to-cell mapping (absent columns report
`Cell.null`, matching the collaborator contract that absent and SQL-NULL are
classified alike). -/
def Row : Type := String → Cell

/-- Database-level errors (`sea_orm::DbErr`), abstracted to the two shapes the
claims distinguish: an underlying database/decoding error, and the error
produced when a `Null` outcome is converted at the strict boundary. -/
inductive DbErr where
  | db (msg : String)
  | nullValue (col : String)
deriving DecidableEq, Repr

/-- `sea_orm::TryGetError`: either a genuine database error or a null report
carrying the column (or context) description. -/
inductive TryGetError where
  | dbErr (e : DbErr)
  | null (col : String)
deriving DecidableEq, Repr

/-- Modelled from the spec: the row collaborator's lookup
(`QueryResult::try_get_nullable`, outside the given sources). The spec's
input contract (§6) and the `Direct` rule (§4.2): the column addressed is the
current prefix concatenated with the source name; present-but-null and
absent both classify as `Null`, a decode failure as `DataError`. -/
def try_get_nullable (row : Row) (pre name : String) : Except TryGetError String :=
  match row (pre ++ name) with
  | .value v => .ok v
  | .null => .error (.null (pre ++ name))
  | .decodeError msg => .error (.dbErr (.db msg))

/-- Extracted values: a decoded primitive, the `Default::default()` value a
skip field binds, or an assembled structure. -/
inductive Value where
  | prim (s : String)
  | defaultVal
  | struct (fields : List (String × Value))
deriving Repr

mutual

/-- One field of a target schema, as the derive classified it
(`FromQueryResultItem` with its `ItemType`): a flat column read with an
optional explicit alias, a skipped field, or a nested structure. -/
inductive SField where
  | flat (ident : String) (als : Option String)
  | skip (ident : String)
  | nested (ident : String) (sub : Schema)

/-- The ordered field list of a target structure. -/
inductive Schema where
  | nil
  | cons (f : SField) (rest : Schema)

end

/-- The field's identifier. -/
def SField.ident : SField → String
  | .flat i _ => i
  | .skip i => i
  | .nested i _ => i

/-- State of one field's let-binding after its check ran: skip fields bind the
plain default (`let ident = Default::default()`), flat and nested fields bind
a `Result` that is either the value or a pending (non-DbErr) error. -/
inductive FieldState where
  | direct (v : Value)
  | res (r : Except TryGetError Value)

/-- One assignment in the final struct expression
(`TryFromQueryResultAssignment::to_tokens`, lines 82-99): flat and nested
bindings get `?` applied, skip bindings are used as-is. -/
def fieldAssign : FieldState → Except TryGetError Value
  | .direct v => .ok v
  | .res r => r

/-- The struct expression `Ok(Self { a: a?, b: b?, c, .. })`: run the
assignments in declaration order, stopping at the first pending error. -/
def assembleFields : List (String × FieldState) → Except TryGetError (List (String × Value))
  | [] => .ok []
  | (n, st) :: rest =>
    match fieldAssign st with
    | .error e => .error e
    | .ok v =>
      match assembleFields rest with
      | .error e => .error e
      | .ok vs => .ok ((n, v) :: vs)

mutual

/-- One field's check (`TryFromQueryResultCheck::to_tokens`, lines 44-77):

* flat (lines 48-60): look up `pre ++ name` where `name` is the alias if one
  was recorded, else the field identifier; return early on `DbErr`, otherwise
  bind the pending result;
* skip (lines 61-65): bind `Default::default()`;
* nested (lines 66-75): call `from_query_result_nullable(row, pre)` of the
  nested structure — note the prefix is passed through *unchanged* — return
  early on `DbErr`, otherwise bind the pending result. -/
def checkField (row : Row) (pre : String) : SField → Except TryGetError FieldState
  | .flat ident als =>
    let name := als.getD ident
    match try_get_nullable row pre name with
    | .error (.dbErr e) => .error (.dbErr e)
    | .error (.null c) => .ok (.res (.error (.null c)))
    | .ok v => .ok (.res (.ok (.prim v)))
  | .skip _ => .ok (.direct .defaultVal)
  | .nested _ sub =>
    match (match checkFields row pre sub with
           | .error e => Except.error e
           | .ok sts =>
             match assembleFields sts with
             | .error e => Except.error e
             | .ok pairs => Except.ok (Value.struct pairs) : Except TryGetError Value) with
    | .error (.dbErr e) => .error (.dbErr e)
    | v => .ok (.res v)

/-- The check sequence `#(#ident_try_init)*`: run every field's check in
declaration order, returning early on the first `DbErr`. -/
def checkFields (row : Row) (pre : String) : Schema → Except TryGetError (List (String × FieldState))
  | .nil => .ok []
  | .cons f fs =>
    match checkField row pre f with
    | .error e => .error e
    | .ok st =>
      match checkFields row pre fs with
      | .error e => .error e
      | .ok sts => .ok ((f.ident, st) :: sts)

end

/-- The generated `from_query_result_nullable` (lines 172-178): run all
checks, then assemble the structure. -/
def from_query_result_nullable (row : Row) (pre : String) (fields : Schema) : Except TryGetError Value :=
  match checkFields row pre fields with
  | .error e => .error e
  | .ok sts =>
    match assembleFields sts with
    | .error e => .error e
    | .ok pairs => .ok (.struct pairs)

/-- Modelled from the spec: the `From<TryGetError> for DbErr` conversion
(outside the given sources) applied by the `?` in the strict entry point —
a `DbErr` passes through unchanged, a `Null` becomes a data error (§4.2:
"if the outcome is `Null`, converts it to `DataError`"). -/
def dbErrFrom : TryGetError → DbErr
  | .dbErr e => e
  | .null col => .nullValue col

/-- The generated strict `from_query_result` (lines 168-170):
`Ok(Self::from_query_result_nullable(row, pre)?)`. -/
def from_query_result (row : Row) (pre : String) (fields : Schema) : Except DbErr Value :=
  match from_query_result_nullable row pre fields with
  | .ok v => .ok v
  | .error e => .error (dbErrFrom e)

/-! ## The schema descriptor builder

Embedding of `DeriveFromQueryResult::new` (lines 102-147) and
`expand_derive_from_query_result` (lines 184-193). The parsed attribute
input (`syn` types) is abstracted to the shapes the builder inspects. -/

/-- Modelled from the spec: one item of an attribute's meta list (the schema
declarations of §6 are "already-parsed input"): either a bare modifier name
such as `skip` / `nested`, or a `name = "value"` pair such as
`from_alias = "x"`. The `GetMeta` helpers (`exists`, `get_as_kv`, from a
module outside the given sources) test these two shapes. -/
inductive MetaItem where
  | path (name : String)
  | nameValue (name : String) (value : String)
deriving DecidableEq, Repr

/-- Modelled from the spec: `Meta::exists(k)` — the item is the bare modifier
named `k`. -/
def MetaItem.existsKey : MetaItem → String → Bool
  | .path n, k => n == k
  | .nameValue _ _, _ => false

/-- Modelled from the spec: `Meta::get_as_kv(k)` — the value of a
`k = "value"` pair, if the item is one. -/
def MetaItem.get_as_kv : MetaItem → String → Option String
  | .nameValue n v, k => if n == k then some v else none
  | .path _, _ => none

/-- One attribute on a field: whether its path is `sea_orm`, and the meta
list `parse_args_with` produced (`none` when parsing failed — such
attributes are silently skipped by the builder). -/
structure Attr where
  is_sea_orm : Bool
  parsed : Option (List MetaItem)
deriving DecidableEq, Repr

/-- A named field of the input structure, with its attributes. -/
structure ParsedField where
  ident : String
  attrs : List Attr
deriving DecidableEq, Repr

/-- The field shapes of a struct declaration (`syn::Fields`). -/
inductive FieldsDecl where
  | named (fields : List ParsedField)
  | unnamed (arity : Nat)
  | unit
deriving DecidableEq, Repr

/-- The data of a derive input (`syn::Data`). -/
inductive DataDecl where
  | structData (fields : FieldsDecl)
  | enumData
  | unionData
deriving DecidableEq, Repr

/-- A derive input (`syn::DeriveInput`, generics omitted — the builder only
forwards them). -/
structure DeriveInput where
  ident : String
  data : DataDecl
deriving DecidableEq, Repr

/-- The extraction kind the builder assigns to a field (`ItemType`). -/
inductive ItemType where
  | flat
  | skip
  | nested
deriving DecidableEq, Repr

/-- A normalized field (`FromQueryResultItem`). -/
structure FromQueryResultItem where
  typ : ItemType
  ident : String
  als : Option String
deriving DecidableEq, Repr

/-- The builder's only error (`enum Error { InputNotStruct }`). -/
inductive DeriveError where
  | inputNotStruct
deriving DecidableEq, Repr

/-- The normalized output of the builder (`DeriveFromQueryResult`, generics
omitted). -/
structure DeriveFromQueryResult where
  ident : String
  fields : List FromQueryResultItem
deriving DecidableEq, Repr

/-- The body of the builder's inner meta loop (lines 128-135): a `skip` item
sets the kind to `Skip`, else a `nested` item sets it to `Nested`, else the
kind is kept; then, unconditionally, the alias is reassigned to this item's
`from_alias` value (or `None`). -/
def processMeta (st : ItemType × Option String) (meta : MetaItem) : ItemType × Option String :=
  let typ := if meta.existsKey "skip" then ItemType.skip
             else if meta.existsKey "nested" then ItemType.nested
             else st.1
  (typ, meta.get_as_kv "from_alias")

/-- The attribute loop body (lines 122-136): non-`sea_orm` attributes and
attributes whose argument list fails to parse are skipped; otherwise every
meta item is processed in order. -/
def processAttr (st : ItemType × Option String) (attr : Attr) : ItemType × Option String :=
  if !attr.is_sea_orm then st
  else
    match attr.parsed with
    | some list => list.foldl processMeta st
    | none => st

/-- The per-field part of the builder loop (lines 119-139), starting from
`ItemType::Flat` and no alias. -/
def buildItem (f : ParsedField) : FromQueryResultItem :=
  let st := f.attrs.foldl processAttr (ItemType.flat, none)
  { typ := st.1, ident := f.ident, als := st.2 }

/-- `DeriveFromQueryResult::new` (lines 102-147): only a struct with named
fields is accepted; each field is normalized by the attribute loop. -/
def DeriveFromQueryResult.new (input : DeriveInput) : Except DeriveError DeriveFromQueryResult :=
  match input.data with
  | .structData (.named named) =>
    .ok { ident := input.ident, fields := named.map buildItem }
  | _ => .error .inputNotStruct

/-- The expansion result: either the generated impl (abstracted to the
normalized schema it is generated from) or the fixed `compile_error!`
diagnostic. -/
inductive Expanded where
  | derived (d : DeriveFromQueryResult)
  | compileError (msg : String)
deriving DecidableEq, Repr

/-- `expand_derive_from_query_result` (lines 184-193). -/
def expand_derive_from_query_result (input : DeriveInput) : Expanded :=
  match DeriveFromQueryResult.new input with
  | .ok m => .derived m
  | .error .inputNotStruct =>
    .compileError "you can only derive `FromQueryResult` on named struct"

/-! ## Helper definitions -/

/-- Whether a schema field is a flat (`Direct`) column read. -/
def isFlat : SField → Bool
  | .flat _ _ => true
  | .skip _ => false
  | .nested _ _ => false

/-- The source name a flat field's lookup uses: the alias when present,
else the field identifier (for non-flat fields, the identifier). -/
def sourceOf : SField → String
  | .flat i a => a.getD i
  | .skip i => i
  | .nested i _ => i

/-- Every field of the schema is flat. -/
def Schema.allFlat : Schema → Bool
  | .nil => true
  | .cons f fs => isFlat f && fs.allFlat

/-- Pointwise predicate over a schema's fields. -/
def Schema.Forall (p : SField → Prop) : Schema → Prop
  | .nil => True
  | .cons f fs => p f ∧ fs.Forall p

/-- Concatenation of schemas. -/
def Schema.append : Schema → Schema → Schema
  | .nil, t => t
  | .cons f fs, t => .cons f (fs.append t)

/-- The check states an all-flat, all-null schema produces: every field is
bound to a pending null error for its looked-up column. -/
def nullStates (pre : String) : Schema → List (String × FieldState)
  | .nil => []
  | .cons f fs => (f.ident, .res (.error (.null (pre ++ sourceOf f)))) :: nullStates pre fs

/-- Whether a nullable-extraction outcome is a `DbErr`-classified failure. -/
def isDbErrOutcome : Except TryGetError Value → Bool
  | .error (.dbErr _) => true
  | .error (.null _) => false
  | .ok _ => false

/-- The strict entry point as the spec words it (§4.2): post-process the
nullable outcome — a `Null` becomes a data error, a `DataError` propagates
as-is, a success is returned unchanged. Spec-side definition, for comparison
with `from_query_result`. -/
def strictFromNullableSpec (o : Except TryGetError Value) : Except DbErr Value :=
  match o with
  | .ok v => .ok v
  | .error (.null col) => .error (DbErr.nullValue col)
  | .error (.dbErr e) => .error e

/-- The nested-field dispatch as claim C2 words it: recurse on the same row
with the *extended* prefix `pre ++ field_name ++ "_"`, propagating `DbErr`
immediately and passing other outcomes through. Spec-side definition, for
comparison with the actual `checkField` nested case. -/
def checkNestedSpec (row : Row) (pre ident : String) (sub : Schema) : Except TryGetError FieldState :=
  match from_query_result_nullable row (pre ++ ident ++ "_") sub with
  | .error (.dbErr e) => .error (.dbErr e)
  | v => .ok (.res v)

/-- Whether a derive input's data is a struct with named fields. -/
def isNamedStruct : DataDecl → Bool
  | .structData (.named _) => true
  | .structData (.unnamed _) => false
  | .structData .unit => false
  | .enumData => false
  | .unionData => false

/-- A row holding field `a` but not field `b`. -/
def rowPartialAbsence : Row := fun c => if c = "a" then Cell.value "1" else Cell.null

/-- A row carrying the nested field's column under the *unextended* prefix
`p_` only. -/
def rowNestedPre : Row := fun c => if c = "p_x" then Cell.value "7" else Cell.null

/-- A row carrying `basics_Name` along with the decoy columns `Name` and
`basics_name`. -/
def rowBasics : Row := fun c =>
  if c = "basics_Name" then Cell.value "Acme"
  else if c = "Name" then Cell.value "wrong"
  else if c = "basics_name" then Cell.value "also wrong"
  else Cell.null

/-- A row where field `a` is absent, field `b` fails to decode, and field
`c` would also fail to decode. -/
def rowDbErrMix : Row := fun c =>
  if c = "b" then Cell.decodeError "boom"
  else if c = "c" then Cell.decodeError "later"
  else Cell.null

/-! ## Helper lemmas -/

/-- List-style induction for `Schema` (its auto-generated eliminator is the
mutual one, which the `induction` tactic cannot use directly). -/
@[induction_eliminator]
theorem Schema.inductionList {motive : Schema → Prop} (nil : motive .nil)
    (cons : ∀ f fs, motive fs → motive (.cons f fs)) : ∀ s, motive s
  | .nil => nil
  | .cons f fs => cons f fs (Schema.inductionList nil cons fs)

/-- The nested case of `checkField` is exactly a call of
`from_query_result_nullable` on the same row and the *same* prefix, with
only the `DbErr` case returned early. -/
lemma checkField_nested (row : Row) (pre i : String) (sub : Schema) :
    checkField row pre (.nested i sub)
      = match from_query_result_nullable row pre sub with
        | .error (.dbErr e) => .error (.dbErr e)
        | v => .ok (.res v) := rfl

/-- On an all-flat schema whose looked-up columns are all null, the check
phase succeeds with every binding in the pending-null state. -/
lemma checkFields_flat_null (row : Row) (pre : String) (fs : Schema)
    (hflat : fs.allFlat = true)
    (hnull : fs.Forall (fun f => row (pre ++ sourceOf f) = Cell.null)) :
    checkFields row pre fs = .ok (nullStates pre fs) := by
  induction fs with
  | nil => rfl
  | cons f fs ih =>
    obtain ⟨hf, hfs⟩ := hnull
    rw [Schema.allFlat, Bool.and_eq_true] at hflat
    cases f with
    | flat i a =>
      have hcell : row (pre ++ a.getD i) = Cell.null := hf
      simp [checkFields, checkField, try_get_nullable, hcell, ih hflat.2 hfs,
        nullStates, sourceOf, SField.ident]
    | skip i => simp [isFlat] at hflat
    | nested i sub => simp [isFlat] at hflat

/-- If every field of a leading schema segment checks without an early
return, an early-returned error of the remainder is the whole check
sequence's result. -/
lemma checkFields_append_error (row : Row) (pre : String) (fs rest : Schema)
    (e : TryGetError)
    (hok : fs.Forall (fun g => ∃ st, checkField row pre g = .ok st))
    (hrest : checkFields row pre rest = .error e) :
    checkFields row pre (fs.append rest) = .error e := by
  induction fs with
  | nil => exact hrest
  | cons g fs ih =>
    obtain ⟨⟨st, hst⟩, hfs⟩ := hok
    simp [Schema.append, checkFields, hst, ih hfs]

/-! ## Claims C1-C7: the extraction engine -/

/-- Claim C1, counterexample: for the two-field schema `{a, b}` with `a`
present and `b` absent, the nullable entry point returns the `Null` outcome
(`TryGetError::Null`), not a `DbErr`-classified failure as the claim
states. -/
theorem c1_partial_absence_counterexample :
    from_query_result_nullable rowPartialAbsence ""
      (.cons (.flat "a" none) (.cons (.flat "b" none) .nil)) = .error (.null "b")
    ∧ isDbErrOutcome (from_query_result_nullable rowPartialAbsence ""
      (.cons (.flat "a" none) (.cons (.flat "b" none) .nil))) = false := ⟨rfl, rfl⟩

/-- Claim C1, amended: for a structure with two `Direct` fields `a` and `b`,
if `a` is present in the row and `b` is absent/null, the nullable entry
point returns the `Null` outcome for `b`'s column — not a partially-filled
instance and not a `DbErr`; the strict entry point then converts this `Null`
into a `DbErr`. -/
theorem c1_partial_absence_yields_null (row : Row) (pre ia ib : String)
    (aa ab : Option String) (v : String)
    (ha : row (pre ++ aa.getD ia) = Cell.value v)
    (hb : row (pre ++ ab.getD ib) = Cell.null) :
    from_query_result_nullable row pre (.cons (.flat ia aa) (.cons (.flat ib ab) .nil))
      = .error (.null (pre ++ ab.getD ib))
    ∧ from_query_result row pre (.cons (.flat ia aa) (.cons (.flat ib ab) .nil))
      = .error (.nullValue (pre ++ ab.getD ib)) := by
  have hnullable :
      from_query_result_nullable row pre (.cons (.flat ia aa) (.cons (.flat ib ab) .nil))
        = .error (.null (pre ++ ab.getD ib)) := by
    simp [from_query_result_nullable, checkFields, checkField, try_get_nullable,
      ha, hb, assembleFields, fieldAssign]
  exact ⟨hnullable, by simp [from_query_result, hnullable, dbErrFrom]⟩

/-- Witness for `c1_partial_absence_yields_null` at a concrete row. -/
theorem c1_partial_absence_yields_null_witness :
    from_query_result_nullable rowPartialAbsence ""
      (.cons (.flat "a" none) (.cons (.flat "b" none) .nil)) = .error (.null "b")
    ∧ from_query_result rowPartialAbsence ""
      (.cons (.flat "a" none) (.cons (.flat "b" none) .nil)) = .error (.nullValue "b") :=
  c1_partial_absence_yields_null rowPartialAbsence "" "a" "b" none none "1" rfl rfl

/-- Claim C2, counterexample: the generated nested dispatch passes the
prefix through unchanged, so under prefix `p_` a nested field `child` with
inner flat field `x` reads column `p_x` and succeeds — whereas the claimed
extended-prefix dispatch would read `p_child_x` and report `Null`. The two
dispatches disagree at this input. -/
theorem c2_nested_extended_pre_counterexample :
    checkField rowNestedPre "p_" (.nested "child" (.cons (.flat "x" none) .nil))
      = .ok (.res (.ok (.struct [("x", .prim "7")])))
    ∧ checkNestedSpec rowNestedPre "p_" "child" (.cons (.flat "x" none) .nil)
      = .ok (.res (.error (.null "p_child_x")))
    ∧ checkField rowNestedPre "p_" (.nested "child" (.cons (.flat "x" none) .nil))
      ≠ checkNestedSpec rowNestedPre "p_" "child" (.cons (.flat "x" none) .nil) := by
  refine ⟨rfl, rfl, fun h => ?_⟩
  have h' : (Except.ok (FieldState.res (Except.ok (Value.struct [("x", Value.prim "7")])))
      : Except TryGetError FieldState)
      = .ok (.res (.error (.null "p_child_x"))) := h
  injection h' with h1
  injection h1 with h2
  injection h2

/-- Claim C2, amended: for every `Nested` field, the generated nullable
extraction recursively invokes the nested structure's nullable entry point
on the same row with the *same, unextended* prefix, propagating `DbErr`
immediately and passing `Null` or success through unchanged. -/
theorem c2_nested_same_pre (row : Row) (pre i : String) (sub : Schema) :
    from_query_result_nullable row pre (.cons (.nested i sub) .nil)
      = match from_query_result_nullable row pre sub with
        | .ok v => .ok (.struct [(i, v)])
        | .error e => .error e := by
  rw [from_query_result_nullable, checkFields, checkField_nested]
  cases h : from_query_result_nullable row pre sub with
  | ok v => simp [checkFields, assembleFields, fieldAssign, SField.ident]
  | error e =>
    cases e with
    | dbErr e => simp
    | null c => simp [checkFields, assembleFields, fieldAssign]

/-- Claim C5: for every row, prefix and schema, the strict entry point
equals the nullable entry point post-processed as the spec describes —
`Null` converted into a data error, `DbErr` propagated as-is, success
returned unchanged. -/
theorem c5_strict_refines_nullable (row : Row) (pre : String) (fields : Schema) :
    from_query_result row pre fields
      = strictFromNullableSpec (from_query_result_nullable row pre fields) := by
  cases h : from_query_result_nullable row pre fields with
  | ok v => simp [from_query_result, strictFromNullableSpec, h]
  | error e =>
    cases e <;> simp [from_query_result, strictFromNullableSpec, h, dbErrFrom]

/-- Claim C6: a `Direct` field's check reads exactly the column obtained by
concatenating the current prefix with the source name — the explicit alias
when one is declared, the field's own identifier otherwise; in particular a
field aliased `Name` under prefix `basics_` reads `basics_Name`, not `Name`
and not `basics_name`. -/
theorem c6_direct_column_addressing (row : Row) (pre i : String) (a : Option String) :
    (checkField row pre (.flat i a)
      = match row (pre ++ a.getD i) with
        | .value v => .ok (.res (.ok (.prim v)))
        | .null => .ok (.res (.error (.null (pre ++ a.getD i))))
        | .decodeError msg => .error (.dbErr (.db msg)))
    ∧ checkField rowBasics "basics_" (.flat "title" (some "Name"))
      = .ok (.res (.ok (.prim "Acme"))) := by
  refine ⟨?_, rfl⟩
  cases h : row (pre ++ a.getD i) <;> simp [checkField, try_get_nullable, h]

/-- Claim C7: a `Skip` field's check binds the type's default value on every
row (including one with no columns at all), is independent of the row and
prefix, and the assembled structure carries the default without any `Null`
or `DbErr` outcome for that field. -/
theorem c7_skip_defaults (row row2 : Row) (pre pre2 i : String) :
    checkField row pre (.skip i) = .ok (.direct .defaultVal)
    ∧ checkField row pre (.skip i) = checkField row2 pre2 (.skip i)
    ∧ from_query_result_nullable row pre (.cons (.skip i) .nil)
      = .ok (.struct [(i, .defaultVal)]) := ⟨rfl, rfl, rfl⟩

/-- Claim C3: for a nonempty all-`Direct` schema whose looked-up columns are
all absent/null in the row, the nullable entry point returns the `Null`
outcome (reported for the first field's column) — not a per-field error and
not a `DbErr`. -/
theorem c3_uniform_absence_collapse (row : Row) (pre i0 : String) (a0 : Option String)
    (rest : Schema)
    (hflat : (Schema.cons (.flat i0 a0) rest).allFlat = true)
    (hnull : (Schema.cons (.flat i0 a0) rest).Forall
      (fun f => row (pre ++ sourceOf f) = Cell.null)) :
    from_query_result_nullable row pre (.cons (.flat i0 a0) rest)
      = .error (.null (pre ++ a0.getD i0)) := by
  rw [from_query_result_nullable, checkFields_flat_null row pre _ hflat hnull]
  simp [nullStates, assembleFields, fieldAssign, sourceOf]

/-- Witness for `c3_uniform_absence_collapse` at a row with no columns. -/
theorem c3_uniform_absence_collapse_witness :
    from_query_result_nullable (fun _ => Cell.null) ""
      (.cons (.flat "a" none) (.cons (.flat "b" none) .nil)) = .error (.null "a") :=
  c3_uniform_absence_collapse (fun _ => Cell.null) "" "a" none
    (.cons (.flat "b" none) .nil) rfl ⟨rfl, rfl, trivial⟩

/-- Claim C4: if every field before `f` checks without an early return (no
`DbErr`; pending `Null` states are allowed) and `f`'s check early-returns a
`DbErr`, then the whole structure's nullable extraction is exactly that
`DbErr`, for *every* choice of later fields — later fields are not
evaluated, and the `DbErr` wins over `Null` whether the null-yielding field
comes before or after it. -/
theorem c4_dberr_short_circuit (row : Row) (pre : String) (fs gs : Schema)
    (f : SField) (e : DbErr)
    (hok : fs.Forall (fun g => ∃ st, checkField row pre g = .ok st))
    (hf : checkField row pre f = .error (.dbErr e)) :
    from_query_result_nullable row pre (fs.append (.cons f gs)) = .error (.dbErr e) := by
  have hrest : checkFields row pre (.cons f gs) = .error (.dbErr e) := by
    simp [checkFields, hf]
  rw [from_query_result_nullable, checkFields_append_error row pre fs _ _ hok hrest]

/-- Witness for `c4_dberr_short_circuit`: `a` is `Null`, `b` raises the
`DbErr`, and the later field `c` (which would also fail) is never reached —
the outcome is `b`'s `DbErr`. -/
theorem c4_dberr_short_circuit_witness :
    from_query_result_nullable rowDbErrMix ""
      (.cons (.flat "a" none) (.cons (.flat "b" none) (.cons (.flat "c" none) .nil)))
      = .error (.dbErr (.db "boom")) :=
  c4_dberr_short_circuit rowDbErrMix "" (.cons (.flat "a" none) .nil)
    (.cons (.flat "c" none) .nil) (.flat "b" none) (.db "boom")
    ⟨⟨.res (.error (.null "a")), rfl⟩, trivial⟩ rfl

/-! ## Claims C8-C10: the schema descriptor builder -/

/-- Claim C8: any derive input that is not a struct with named fields (an
enum, union, tuple struct or unit struct) is rejected at schema-construction
time with the fixed diagnostic, and no extraction impl is produced for it. -/
theorem c8_reject_non_named_struct (input : DeriveInput)
    (h : isNamedStruct input.data = false) :
    expand_derive_from_query_result input
      = .compileError "you can only derive `FromQueryResult` on named struct" := by
  obtain ⟨id, data⟩ := input
  cases data with
  | structData fl =>
    cases fl with
    | named fields => simp [isNamedStruct] at h
    | unnamed n => rfl
    | unit => rfl
  | enumData => rfl
  | unionData => rfl

/-- Witness for `c8_reject_non_named_struct` at an enum input. -/
theorem c8_reject_non_named_struct_witness :
    expand_derive_from_query_result ⟨"Foo", .enumData⟩
      = .compileError "you can only derive `FromQueryResult` on named struct" :=
  c8_reject_non_named_struct ⟨"Foo", .enumData⟩ rfl

/-- Processing meta items that are neither `skip` nor `nested` leaves the
extraction kind unchanged. -/
lemma foldl_typ_stable (r : List MetaItem) (st : ItemType × Option String)
    (hr : ∀ m ∈ r, m.existsKey "skip" = false ∧ m.existsKey "nested" = false) :
    (r.foldl processMeta st).1 = st.1 := by
  induction r generalizing st with
  | nil => rfl
  | cons m ms ih =>
    have hm := hr m (List.mem_cons_self m ms)
    rw [List.foldl_cons, ih _ (fun x hx => hr x (List.mem_cons_of_mem _ hx))]
    simp [processMeta, hm.1, hm.2]

/-- Claim C9: the builder never rejects a field whose `sea_orm` list carries
both `skip` and `nested`; the field's kind is the later-listed of the two
(here isolated as: the last `skip`/`nested` item in the list decides, with
`last` that item and `r` the items after it). -/
theorem c9_multi_modifier_last_wins (structName fieldName : String)
    (l r : List MetaItem) (last : MetaItem)
    (hboth : MetaItem.path "skip" ∈ l ++ last :: r
      ∧ MetaItem.path "nested" ∈ l ++ last :: r)
    (hlast : last = .path "skip" ∨ last = .path "nested")
    (hr : ∀ m ∈ r, m.existsKey "skip" = false ∧ m.existsKey "nested" = false) :
    DeriveFromQueryResult.new
      ⟨structName, .structData (.named [⟨fieldName, [⟨true, some (l ++ last :: r)⟩]⟩])⟩
      = .ok ⟨structName, [buildItem ⟨fieldName, [⟨true, some (l ++ last :: r)⟩]⟩]⟩
    ∧ (buildItem ⟨fieldName, [⟨true, some (l ++ last :: r)⟩]⟩).typ
      = (if last.existsKey "skip" then ItemType.skip else ItemType.nested) := by
  refine ⟨rfl, ?_⟩
  show ((l ++ last :: r).foldl processMeta (ItemType.flat, none)).1 = _
  rw [show l ++ last :: r = (l ++ [last]) ++ r by simp, List.foldl_append,
    foldl_typ_stable r _ hr, List.foldl_append]
  rcases hlast with h | h <;> subst h <;>
    simp [processMeta, MetaItem.existsKey]

/-- Witness for `c9_multi_modifier_last_wins`: `#[sea_orm(skip, nested)]` is
accepted and the field comes out `Nested`. -/
theorem c9_multi_modifier_last_wins_witness :
    DeriveFromQueryResult.new
      ⟨"S", .structData (.named
        [⟨"f", [⟨true, some [MetaItem.path "skip", MetaItem.path "nested"]⟩]⟩])⟩
      = .ok ⟨"S", [buildItem ⟨"f",
        [⟨true, some [MetaItem.path "skip", MetaItem.path "nested"]⟩]⟩]⟩
    ∧ (buildItem ⟨"f",
        [⟨true, some [MetaItem.path "skip", MetaItem.path "nested"]⟩]⟩).typ
      = ItemType.nested :=
  c9_multi_modifier_last_wins "S" "f" [.path "skip"] [] (.path "nested")
    ⟨by decide, by decide⟩ (Or.inr rfl) (by decide)

/-- Claim C10: the alias the builder records is the `from_alias` value of
the last meta item processed — any later item lacking `from_alias` resets it
to none, so `#[sea_orm(from_alias = "x", skip)]` ends with no alias (and
kind `Skip`). -/
theorem c10_alias_from_last_meta (st : ItemType × Option String)
    (ms : List MetaItem) (m : MetaItem) :
    ((ms ++ [m]).foldl processMeta st).2 = m.get_as_kv "from_alias"
    ∧ (buildItem ⟨"f",
        [⟨true, some [MetaItem.nameValue "from_alias" "x", MetaItem.path "skip"]⟩]⟩).als
      = none
    ∧ (buildItem ⟨"f",
        [⟨true, some [MetaItem.nameValue "from_alias" "x", MetaItem.path "skip"]⟩]⟩).typ
      = ItemType.skip := by
  refine ⟨?_, rfl, rfl⟩
  rw [List.foldl_append]
  rfl
